import Mathlib

/-!
Shallow embedding of the forked-blockchain core of this repository:

* `crates/rethnet_eth/src/remote/eth.rs` — the external (JSON-RPC shaped)
  transaction/block records and their conversion to the internal shape;
* `crates/rethnet_evm/src/blockchain/forked.rs` — the forked blockchain
  overlay (reads across local store / remote cache / RPC client, append).

Machine integers are modelled as `Nat`; `U256` values are below `2 ^ 256`
(no operation in the modelled code reaches that bound), narrowing
conversions carry their explicit bounds.  Fallible Rust code is modelled
with `Except`/`Option`; a Rust panic (an `expect`/`unwrap`/narrowing
failure) is modelled by the dedicated `Outcome.panic` constructor or by a
`none` result, as documented at each definition.
-/

namespace Rethnet

/-- 256-bit unsigned integer (`ruint` `U256`).  Values are `< 2 ^ 256`. -/
abbrev U256 := Nat

/-- 256-bit hash (`B256`), modelled by its numeric value. -/
abbrev B256 := Nat

/-- 64-bit unsigned integer. -/
abbrev U64 := Nat

/-- 160-bit address. -/
abbrev Address := Nat

/-- Opaque byte string (`Bytes`), modelled as the list of byte values. -/
abbrev Bytes := List Nat

/-- Bloom filter (256 bytes), modelled by its numeric value. -/
abbrev Bloom := Nat

/-- Decidable equality for `Except`, so conversion results can be
evaluated on concrete inputs. -/
instance {ε α : Type} [DecidableEq ε] [DecidableEq α] :
    DecidableEq (Except ε α) := fun x y =>
  match x, y with
  | Except.error a, Except.error b => decidable_of_iff (a = b) (by simp)
  | Except.error _, Except.ok _ => Decidable.isFalse (by simp)
  | Except.ok _, Except.error _ => Decidable.isFalse (by simp)
  | Except.ok a, Except.ok b => decidable_of_iff (a = b) (by simp)

/-- First value outside the `u64` range. -/
def U64_SIZE : Nat := 2 ^ 64

/-- First value outside the `usize` range (64-bit platform). -/
def USIZE_SIZE : Nat := 2 ^ 64

/-- Model of `usize::try_from(n)` for a `U256` `n` on a 64-bit platform:
succeeds exactly when the value is representable as a machine index. -/
def usize_try_from (n : U256) : Option Nat :=
  if n < USIZE_SIZE then some n else none

/-- Model of `ruint`'s narrowing `U256::to::<u64>()` as used for
`gas_limit: value.gas.to()`: returns the value when it fits in 64 bits and
panics (`none`) otherwise, per `ruint`'s documented behaviour. -/
def u256_to_u64 (n : U256) : Option U64 :=
  if n < U64_SIZE then some n else none

/-- Modelled from the spec: an access list is a set of
(address, storage key set) pairs attached to typed transactions
(`rethnet_eth::access_list::AccessListItem`, outside the given slice). -/
structure AccessListItem where
  address : Address
  storage_keys : List B256
deriving DecidableEq, Repr

/-- Modelled from the spec: a withdrawal record
(`rethnet_eth::remote::withdrawal::Withdrawal`, outside the given slice).
It is carried through the external block but never inspected by the
modelled code. -/
structure Withdrawal where
  index : U64
  validator_index : U64
  address : Address
  amount : U256
deriving DecidableEq, Repr

/-- The external (JSON-RPC shaped) transaction record
(`remote::eth::Transaction`).  Field types follow the source: `nonce`,
`v`, `chain_id` and `transaction_type` are 64-bit, the rest are 256-bit
or optional.  The Rust fields `from` and `to` are named `from_addr` and `to_addr`
here because `from` and `to` are Lean keywords. -/
structure Transaction where
  hash : B256
  nonce : U64
  block_hash : Option B256
  block_number : Option U256
  transaction_index : Option U64
  from_addr : Address
  to_addr : Option Address
  value : U256
  gas_price : U256
  gas : U256
  input : Bytes
  v : U64
  r : U256
  s : U256
  chain_id : Option U64
  transaction_type : U64
  access_list : Option (List AccessListItem)
  max_fee_per_gas : Option U256
  max_priority_fee_per_gas : Option U256
deriving DecidableEq, Repr

/-- Transaction kind: `Call(address)` or `Create`
(`transaction::TransactionKind`). -/
inductive TransactionKind where
  | Call (address : Address)
  | Create
deriving DecidableEq, Repr

/-- ECDSA signature of a legacy transaction (`signature::Signature`). -/
structure Signature where
  r : U256
  s : U256
  v : U64
deriving DecidableEq, Repr

/-- Modelled from the spec: the internal legacy transaction envelope
(`transaction::LegacySignedTransaction`, outside the given slice): nonce,
gas price, gas limit (a 64-bit narrowed view of `gas`), kind, value,
input, ECDSA signature. -/
structure LegacySignedTransaction where
  nonce : U64
  gas_price : U256
  gas_limit : U64
  kind : TransactionKind
  value : U256
  input : Bytes
  signature : Signature
deriving DecidableEq, Repr

/-- Modelled from the spec: the internal EIP-2930 transaction envelope
(adds chain id and access list; signature encoded as
`(r, s, odd_y_parity)`). -/
structure EIP2930SignedTransaction where
  chain_id : U64
  nonce : U64
  gas_price : U256
  gas_limit : U64
  kind : TransactionKind
  value : U256
  input : Bytes
  access_list : List AccessListItem
  odd_y_parity : Bool
  r : B256
  s : B256
deriving DecidableEq, Repr

/-- Modelled from the spec: the internal EIP-1559 transaction envelope
(replaces `gas_price` with the two fee fields; adds chain id and access
list; same signature shape as EIP-2930). -/
structure EIP1559SignedTransaction where
  chain_id : U64
  nonce : U64
  max_priority_fee_per_gas : U256
  max_fee_per_gas : U256
  gas_limit : U64
  kind : TransactionKind
  value : U256
  input : Bytes
  access_list : List AccessListItem
  odd_y_parity : Bool
  r : B256
  s : B256
deriving DecidableEq, Repr

/-- The internal signed transaction: a tagged variant over the three
envelopes (`transaction::SignedTransaction`). -/
inductive SignedTransaction where
  | Legacy (tx : LegacySignedTransaction)
  | EIP2930 (tx : EIP2930SignedTransaction)
  | EIP1559 (tx : EIP1559SignedTransaction)
deriving DecidableEq, Repr

/-- Errors of the external-to-internal transaction conversion
(`remote::eth::TransactionConversionError`). -/
inductive TransactionConversionError where
  | MissingAccessList
  | MissingChainId
  | MissingMaxFeePerGas
  | MissingMaxPriorityFeePerGas
  | UnsupportedType (n : U64)
deriving DecidableEq, Repr

/-- Model of `B256::from(U256)`: the 32-byte big-endian reinterpretation
of a 256-bit integer, a byte-identical bijection, hence the identity on
the numeric model. -/
def b256_from_u256 (x : U256) : B256 := x

/-- Model of `impl TryFrom<Transaction> for SignedTransaction`
(`remote::eth::try_from`).  The result is `none` when the Rust code
panics: the only panic site is the narrowing `value.gas.to()` for
`gas_limit`, which Rust evaluates in the textual order of the struct
literal — after the `chain_id` and fee-field checks but before the
`access_list` check.  Otherwise the typed result is returned. -/
def signed_transaction_try_from (value : Transaction) :
    Option (Except TransactionConversionError SignedTransaction) :=
  let kind := match value.to_addr with
    | some t => TransactionKind.Call t
    | none => TransactionKind.Create
  match value.transaction_type with
  | 0 =>
    match u256_to_u64 value.gas with
    | none => none
    | some gas_limit =>
      some (Except.ok (SignedTransaction.Legacy {
        nonce := value.nonce
        gas_price := value.gas_price
        gas_limit := gas_limit
        kind := kind
        value := value.value
        input := value.input
        signature := { r := value.r, s := value.s, v := value.v } }))
  | 1 =>
    match value.chain_id with
    | none => some (Except.error TransactionConversionError.MissingChainId)
    | some chain_id =>
      match u256_to_u64 value.gas with
      | none => none
      | some gas_limit =>
        match value.access_list with
        | none => some (Except.error TransactionConversionError.MissingAccessList)
        | some access_list =>
          some (Except.ok (SignedTransaction.EIP2930 {
            chain_id := chain_id
            nonce := value.nonce
            gas_price := value.gas_price
            gas_limit := gas_limit
            kind := kind
            value := value.value
            input := value.input
            access_list := access_list
            odd_y_parity := value.v != 0
            r := b256_from_u256 value.r
            s := b256_from_u256 value.s }))
  | 2 =>
    match value.chain_id with
    | none => some (Except.error TransactionConversionError.MissingChainId)
    | some chain_id =>
      match value.max_priority_fee_per_gas with
      | none => some (Except.error TransactionConversionError.MissingMaxPriorityFeePerGas)
      | some max_priority_fee_per_gas =>
        match value.max_fee_per_gas with
        | none => some (Except.error TransactionConversionError.MissingMaxFeePerGas)
        | some max_fee_per_gas =>
          match u256_to_u64 value.gas with
          | none => none
          | some gas_limit =>
            match value.access_list with
            | none => some (Except.error TransactionConversionError.MissingAccessList)
            | some access_list =>
              some (Except.ok (SignedTransaction.EIP1559 {
                chain_id := chain_id
                nonce := value.nonce
                max_priority_fee_per_gas := max_priority_fee_per_gas
                max_fee_per_gas := max_fee_per_gas
                gas_limit := gas_limit
                kind := kind
                value := value.value
                input := value.input
                access_list := access_list
                odd_y_parity := value.v != 0
                r := b256_from_u256 value.r
                s := b256_from_u256 value.s }))
  | t => some (Except.error (TransactionConversionError.UnsupportedType t))

/-- The transaction kind the conversion assigns:
`Call(to)` when `to` is present, `Create` otherwise. -/
def transaction_kind_of (value : Transaction) : TransactionKind :=
  match value.to_addr with
  | some t => TransactionKind.Call t
  | none => TransactionKind.Create

/-- Hex digit value of a character, as accepted by Rust's
`u64::from_str_radix(_, 16)`. -/
def hex_digit_val (c : Char) : Option Nat :=
  if c.toNat ≥ 48 ∧ c.toNat ≤ 57 then some (c.toNat - 48)
  else if c.toNat ≥ 97 ∧ c.toNat ≤ 102 then some (c.toNat - 87)
  else if c.toNat ≥ 65 ∧ c.toNat ≤ 70 then some (c.toNat - 55)
  else none

/-- Model of `u64::from_str_radix(s, 16)`: an optional leading `+`
followed by one or more hex digits, failing on an empty digit string, a
non-digit, or a value outside `u64`. -/
def from_str_radix_16 (s : String) : Option Nat :=
  let digits := match s.data with
    | '+' :: rest => rest
    | cs => cs
  if digits.isEmpty then none
  else
    (digits.foldl
      (fun acc c =>
        match acc, hex_digit_val c with
        | some a, some d => some (a * 16 + d)
        | _, _ => none)
      (some 0)).bind
      (fun n => if n < U64_SIZE then some n else none)

/-- Model of the `u64_from_hex` deserializer (`remote::eth.rs`):
`u64::from_str_radix(&s[2..], 16).expect(..)`.  `none` models the panic:
either the byte slice `&s[2..]` is out of bounds (fewer than two
characters) or the radix parse fails. -/
def u64_from_hex (s : String) : Option U64 :=
  if s.length < 2 then none
  else from_str_radix_16 (String.mk (s.data.drop 2))

/-- Model of the serde deserialization of the `Transaction` field
`transaction_type` (`#[serde(rename = "type", default,
deserialize_with = "u64_from_hex")]`): an absent `type` field takes the
`u64` default `0`; a present field goes through `u64_from_hex`, whose
failure is a deserialization panic (`none`). -/
def transaction_type_from_field (field : Option String) : Option U64 :=
  match field with
  | none => some 0
  | some s => u64_from_hex s

/-- The external (JSON-RPC shaped) block record
(`remote::eth::Block<TX>`), instantiated at `TX := Transaction` as used
by the overlay. -/
structure EthBlock where
  hash : Option B256
  parent_hash : B256
  sha3_uncles : B256
  state_root : B256
  transactions_root : B256
  receipts_root : B256
  number : U256
  gas_used : U256
  gas_limit : U256
  extra_data : Bytes
  logs_bloom : Bloom
  timestamp : U256
  difficulty : U256
  total_difficulty : Option U256
  uncles : List B256
  transactions : List Transaction
  size : U256
  mix_hash : B256
  nonce : Option U64
  base_fee_per_gas : Option U256
  miner : Option Address
  withdrawals : List Withdrawal
  withdrawals_root : Option B256
deriving DecidableEq, Repr

/-- The internal block header (`block::Header`), with the fields the
conversion in `remote::eth.rs` populates.  The 8-byte header nonce is the
`u64` widened by `B64::from_limbs`. -/
structure Header where
  parent_hash : B256
  ommers_hash : B256
  beneficiary : Address
  state_root : B256
  transactions_root : B256
  receipts_root : B256
  logs_bloom : Bloom
  difficulty : U256
  number : U256
  gas_limit : U256
  gas_used : U256
  timestamp : U256
  extra_data : Bytes
  mix_hash : B256
  nonce : U64
  base_fee_per_gas : Option U256
  withdrawals_root : Option B256
deriving DecidableEq, Repr

/-- The internal block (`block::Block`): header, transactions, ommer
headers (always set empty by the conversion). -/
structure Block where
  header : Header
  transactions : List SignedTransaction
  ommers : List Header
deriving DecidableEq, Repr

/-- Errors of the external-to-internal block conversion
(`remote::eth::BlockConversionError`). -/
inductive BlockConversionError where
  | MissingMiner
  | MissingNonce
  | TransactionConversionError (e : TransactionConversionError)
deriving DecidableEq, Repr

/-- Conversion of the transaction list of an external block: each element
through `signed_transaction_try_from`; the first failure aborts; a panic
(`none`) in an element propagates. -/
def convert_transactions (txs : List Transaction) :
    Option (Except TransactionConversionError (List SignedTransaction)) :=
  match txs with
  | [] => some (Except.ok [])
  | t :: ts =>
    match signed_transaction_try_from t with
    | none => none
    | some (Except.error e) => some (Except.error e)
    | some (Except.ok s) =>
      match convert_transactions ts with
      | none => none
      | some (Except.error e) => some (Except.error e)
      | some (Except.ok ss) => some (Except.ok (s :: ss))

/-- Model of `impl TryFrom<Block<TX>> for block::Block`
(`remote::eth.rs`): requires `miner` and `nonce`, converts each
transaction (first failure aborts), sets `ommers` empty regardless of
`uncles`.  Rust's struct-literal evaluation order puts the `miner` and
`nonce` checks before the transaction conversion; `none` models a panic
propagated from a transaction conversion. -/
def block_try_from (value : EthBlock) :
    Option (Except BlockConversionError Block) :=
  match value.miner with
  | none => some (Except.error BlockConversionError.MissingMiner)
  | some miner =>
    match value.nonce with
    | none => some (Except.error BlockConversionError.MissingNonce)
    | some nonce =>
      match convert_transactions value.transactions with
      | none => none
      | some (Except.error e) =>
        some (Except.error (BlockConversionError.TransactionConversionError e))
      | some (Except.ok txs) =>
        some (Except.ok {
          header := {
            parent_hash := value.parent_hash
            ommers_hash := value.sha3_uncles
            beneficiary := miner
            state_root := value.state_root
            transactions_root := value.transactions_root
            receipts_root := value.receipts_root
            logs_bloom := value.logs_bloom
            difficulty := value.difficulty
            number := value.number
            gas_limit := value.gas_limit
            gas_used := value.gas_used
            timestamp := value.timestamp
            extra_data := value.extra_data
            mix_hash := value.mix_hash
            nonce := nonce
            base_fee_per_gas := value.base_fee_per_gas
            withdrawals_root := value.withdrawals_root }
          transactions := txs
          ommers := [] })

/-- Runtime errors of the overlay
(`blockchain::BlockchainError`, the variants `forked.rs` produces). -/
inductive BlockchainError where
  | JsonRpcError
  | BlockNumberTooLarge
  | UnknownBlockNumber
  | InvalidBlockNumber (actual : U256) (expected : U256)
  | InvalidParentHash
deriving DecidableEq, Repr

/-- Errors of `ForkedBlockchain::new` (`forked.rs::CreationError`).  The
`JsonRpcError` payload and the hardfork name are abstracted away. -/
inductive CreationError where
  | JsonRpcError
  | InvalidBlockNumber (fork_block_number : U256) (latest_block_number : U256)
  | InvalidHardfork (fork_block_number : U256)
  | UnsupportedChain (chain_id : U256)
deriving DecidableEq, Repr

/-- Model of `forked.rs::largest_possible_reorg`: the static chain-id →
reorg-depth table (mainnet, Ropsten, Rinkeby, Goerli, Kovan, xDai). -/
def largest_possible_reorg (chain_id : U256) : Option U256 :=
  if chain_id = 1 then some 5
  else if chain_id = 3 then some 100
  else if chain_id = 4 then some 5
  else if chain_id = 5 then some 5
  else if chain_id = 42 then some 5
  else if chain_id = 100 then some 38
  else none

/-- The fallback reorg depth `FALLBACK_MAX_REORG` of
`ForkedBlockchain::new`. -/
def FALLBACK_MAX_REORG : U256 := 30

/-- Model of the fork-block-number determination in
`ForkedBlockchain::new` (steps 3–5 of construction): given the RPC-read
chain id and latest block number and the optional caller-supplied fork
block number, returns the effective fork block number together with
whether the too-few-confirmations warning is logged, or the
`InvalidBlockNumber` creation error.  `U256::saturating_sub` is `Nat`
subtraction. -/
def select_fork_block_number (chain_id latest_block_number : U256)
    (requested : Option U256) : Except CreationError (U256 × Bool) :=
  let max_reorg := (largest_possible_reorg chain_id).getD FALLBACK_MAX_REORG
  let safe_block_number := latest_block_number - max_reorg
  match requested with
  | some fork_block_number =>
    if fork_block_number > latest_block_number then
      Except.error (CreationError.InvalidBlockNumber fork_block_number latest_block_number)
    else if fork_block_number > safe_block_number then
      Except.ok (fork_block_number, true)
    else
      Except.ok (fork_block_number, false)
  | none => Except.ok (safe_block_number, false)

/-- The two hash functions the overlay applies but does not define
(keccak of the RLP encoding, computed by `Header::hash` and the
transaction hashing outside the given slice).  The overlay is parametric
in them. -/
structure HashModel where
  headerHash : Header → B256
  txHash : SignedTransaction → B256

/-- The remote JSON-RPC client, as consumed by the overlay.  Responses
are deterministic per query.  An outer `none` is a transport failure
(`RpcClientError`, surfaced as `JsonRpcError`); for the hash/transaction
queries the inner `Option` is remote *not found*.
`get_block_by_number_with_transaction_data` has no *not found* result in
the consumed interface. -/
structure RpcClient where
  getBlockByNumber : U256 → Option EthBlock
  getBlockByHash : B256 → Option (Option EthBlock)
  getTransactionByHash : B256 → Option (Option Transaction)

/-- The mutable contents of a `ForkedBlockchain`: the dense local store
and the sparse remote cache, each holding blocks together with their
total difficulty (the storages are external; lists model their ordered
contents, lookups their maps), plus the immutable construction results.
-/
structure ForkedBlockchain where
  local_storage : List (Block × U256)
  remote_cache : List (Block × U256)
  fork_block_number : U256
  chain_id : U256
  network_id : U256
deriving DecidableEq, Repr

/-- Storage lookup by block number (`SparseBlockchainStorage
::block_by_number`): the entry whose header number matches. -/
def storage_block_by_number (entries : List (Block × U256)) (n : U256) :
    Option (Block × U256) :=
  entries.find? (fun p => p.1.header.number == n)

/-- Storage lookup by block hash (`block_by_hash` of either storage). -/
def storage_block_by_hash (hm : HashModel) (entries : List (Block × U256))
    (h : B256) : Option (Block × U256) :=
  entries.find? (fun p => hm.headerHash p.1.header == h)

/-- Storage lookup by contained transaction hash
(`block_by_transaction_hash` of either storage). -/
def storage_block_by_transaction_hash (hm : HashModel)
    (entries : List (Block × U256)) (th : B256) : Option (Block × U256) :=
  entries.find? (fun p => p.1.transactions.any (fun tx => hm.txHash tx == th))

/-- Storage lookup of the stored total difficulty by block hash
(`total_difficulty_by_hash` of either storage). -/
def storage_total_difficulty_by_hash (hm : HashModel)
    (entries : List (Block × U256)) (h : B256) : Option U256 :=
  (storage_block_by_hash hm entries h).map (fun p => p.2)

/-- Outcome of an overlay operation: a Rust panic (a failed `expect` in
the overlay or inside a remote-block conversion), a returned error, or a
returned value. -/
inductive Outcome (α : Type) where
  | panic
  | fail (e : BlockchainError)
  | ok (a : α)
deriving DecidableEq, Repr

/-- The remote fetch-convert-admit step shared by the by-number read
paths of `forked.rs` (`block_hash`, `block_by_number`, `last_block`):
RPC `get_block_by_number_with_transaction_data`, `expect` on the wire
`total_difficulty`, `Block::try_from(..).expect(..)`, then
`insert_block_unchecked` into the remote cache (an append in the list
model).  Returns the admitted block and its total difficulty. -/
def fetch_and_admit_by_number (rpc : RpcClient)
    (st : ForkedBlockchain) (n : U256) :
    Outcome (Block × U256) × ForkedBlockchain :=
  match rpc.getBlockByNumber n with
  | none => (Outcome.fail BlockchainError.JsonRpcError, st)
  | some eth_block =>
    match eth_block.total_difficulty with
    | none => (Outcome.panic, st)
    | some total_difficulty =>
      match block_try_from eth_block with
      | none => (Outcome.panic, st)
      | some (Except.error _) => (Outcome.panic, st)
      | some (Except.ok b) =>
        (Outcome.ok (b, total_difficulty),
          { st with remote_cache := st.remote_cache ++ [(b, total_difficulty)] })

/-- The remote fetch-convert-admit step shared by the by-hash read paths
of `forked.rs` (`block_by_hash`, `total_difficulty_by_hash`); `ok none`
is remote *not found*. -/
def fetch_and_admit_by_hash (rpc : RpcClient)
    (st : ForkedBlockchain) (h : B256) :
    Outcome (Option (Block × U256)) × ForkedBlockchain :=
  match rpc.getBlockByHash h with
  | none => (Outcome.fail BlockchainError.JsonRpcError, st)
  | some none => (Outcome.ok none, st)
  | some (some eth_block) =>
    match eth_block.total_difficulty with
    | none => (Outcome.panic, st)
    | some total_difficulty =>
      match block_try_from eth_block with
      | none => (Outcome.panic, st)
      | some (Except.error _) => (Outcome.panic, st)
      | some (Except.ok b) =>
        (Outcome.ok (some (b, total_difficulty)),
          { st with remote_cache := st.remote_cache ++ [(b, total_difficulty)] })

/-- Model of `BlockHashRef::block_hash` for `ForkedBlockchain`
(`forked.rs`): numbers at or below the fork point are served from the
remote cache (fetching and admitting on a miss); above it, the queried
number itself is converted to a machine index (`BlockNumberTooLarge` on
failure) and used to index the ordered local block slice
(`UnknownBlockNumber` past the end). -/
def fb_block_hash (hm : HashModel) (rpc : RpcClient) (st : ForkedBlockchain)
    (number : U256) : Outcome B256 × ForkedBlockchain :=
  if number ≤ st.fork_block_number then
    match storage_block_by_number st.remote_cache number with
    | some p => (Outcome.ok (hm.headerHash p.1.header), st)
    | none =>
      let f := fetch_and_admit_by_number rpc st number
      match f.1 with
      | Outcome.ok bt => (Outcome.ok (hm.headerHash bt.1.header), f.2)
      | Outcome.panic => (Outcome.panic, f.2)
      | Outcome.fail e => (Outcome.fail e, f.2)
  else
    match usize_try_from number with
    | none => (Outcome.fail BlockchainError.BlockNumberTooLarge, st)
    | some idx =>
      match (st.local_storage.map (fun p => p.1)).get? idx with
      | some b => (Outcome.ok (hm.headerHash b.header), st)
      | none => (Outcome.fail BlockchainError.UnknownBlockNumber, st)

/-- Model of `Blockchain::block_by_number` for `ForkedBlockchain`
(`forked.rs`): like `fb_block_hash` but returning the block, with `ok
none` (not an error) past the end of the local store. -/
def fb_block_by_number (hm : HashModel) (rpc : RpcClient)
    (st : ForkedBlockchain) (number : U256) :
    Outcome (Option Block) × ForkedBlockchain :=
  if number ≤ st.fork_block_number then
    match storage_block_by_number st.remote_cache number with
    | some p => (Outcome.ok (some p.1), st)
    | none =>
      let f := fetch_and_admit_by_number rpc st number
      match f.1 with
      | Outcome.ok bt => (Outcome.ok (some bt.1), f.2)
      | Outcome.panic => (Outcome.panic, f.2)
      | Outcome.fail e => (Outcome.fail e, f.2)
  else
    match usize_try_from number with
    | none => (Outcome.fail BlockchainError.BlockNumberTooLarge, st)
    | some idx =>
      (Outcome.ok ((st.local_storage.map (fun p => p.1)).get? idx), st)

/-- Model of `Blockchain::block_by_hash` for `ForkedBlockchain`
(`forked.rs`): local store, then remote cache, then RPC
fetch-convert-admit; remote *not found* yields `ok none`. -/
def fb_block_by_hash (hm : HashModel) (rpc : RpcClient)
    (st : ForkedBlockchain) (h : B256) :
    Outcome (Option Block) × ForkedBlockchain :=
  match storage_block_by_hash hm st.local_storage h with
  | some p => (Outcome.ok (some p.1), st)
  | none =>
    match storage_block_by_hash hm st.remote_cache h with
    | some p => (Outcome.ok (some p.1), st)
    | none =>
      let f := fetch_and_admit_by_hash rpc st h
      match f.1 with
      | Outcome.ok (some bt) => (Outcome.ok (some bt.1), f.2)
      | Outcome.ok none => (Outcome.ok none, f.2)
      | Outcome.panic => (Outcome.panic, f.2)
      | Outcome.fail e => (Outcome.fail e, f.2)

/-- Model of `Blockchain::block_by_transaction_hash` for
`ForkedBlockchain` (`forked.rs`): local store, then remote cache, then
RPC `get_transaction_by_hash`; on a found transaction the code recurses
into `block_by_hash` with `transaction.hash` — the transaction's own
hash field, not the block hash the transaction references. -/
def fb_block_by_transaction_hash (hm : HashModel) (rpc : RpcClient)
    (st : ForkedBlockchain) (th : B256) :
    Outcome (Option Block) × ForkedBlockchain :=
  match storage_block_by_transaction_hash hm st.local_storage th with
  | some p => (Outcome.ok (some p.1), st)
  | none =>
    match storage_block_by_transaction_hash hm st.remote_cache th with
    | some p => (Outcome.ok (some p.1), st)
    | none =>
      match rpc.getTransactionByHash th with
      | none => (Outcome.fail BlockchainError.JsonRpcError, st)
      | some none => (Outcome.ok none, st)
      | some (some transaction) => fb_block_by_hash hm rpc st transaction.hash

/-- Model of `Blockchain::last_block` for `ForkedBlockchain`
(`forked.rs`): the last local block when the local store is non-empty;
otherwise the remote cache at `fork_block_number`; otherwise RPC
fetch-convert-admit of that block. -/
def fb_last_block (hm : HashModel) (rpc : RpcClient)
    (st : ForkedBlockchain) : Outcome Block × ForkedBlockchain :=
  match st.local_storage.getLast? with
  | some p => (Outcome.ok p.1, st)
  | none =>
    match storage_block_by_number st.remote_cache st.fork_block_number with
    | some p => (Outcome.ok p.1, st)
    | none =>
      let f := fetch_and_admit_by_number rpc st st.fork_block_number
      match f.1 with
      | Outcome.ok bt => (Outcome.ok bt.1, f.2)
      | Outcome.panic => (Outcome.panic, f.2)
      | Outcome.fail e => (Outcome.fail e, f.2)

/-- Model of `Blockchain::last_block_number` for `ForkedBlockchain`
(`forked.rs`): `fork_block_number + local_storage.blocks().len()`. -/
def fb_last_block_number (st : ForkedBlockchain) : U256 :=
  st.fork_block_number + st.local_storage.length

/-- Model of `Blockchain::total_difficulty_by_hash` for
`ForkedBlockchain` (`forked.rs`): local store, then remote cache, then
RPC fetch-convert-admit returning the wire `total_difficulty`. -/
def fb_total_difficulty_by_hash (hm : HashModel) (rpc : RpcClient)
    (st : ForkedBlockchain) (h : B256) :
    Outcome (Option U256) × ForkedBlockchain :=
  match storage_total_difficulty_by_hash hm st.local_storage h with
  | some td => (Outcome.ok (some td), st)
  | none =>
    match storage_total_difficulty_by_hash hm st.remote_cache h with
    | some td => (Outcome.ok (some td), st)
    | none =>
      let f := fetch_and_admit_by_hash rpc st h
      match f.1 with
      | Outcome.ok (some bt) => (Outcome.ok (some bt.2), f.2)
      | Outcome.ok none => (Outcome.ok none, f.2)
      | Outcome.panic => (Outcome.panic, f.2)
      | Outcome.fail e => (Outcome.fail e, f.2)

/-- Model of `BlockchainMut::insert_block` for `ForkedBlockchain`
(`forked.rs`): read `last_block` (propagating its error), validate the
successor number (`InvalidBlockNumber{actual, expected}`) and the parent
hash (`InvalidParentHash`), look up the previous total difficulty by the
last block's hash (both `expect`s there are panics), and append the
block with the summed total difficulty to the local store
(`insert_block_unchecked`). -/
def fb_insert_block (hm : HashModel) (rpc : RpcClient)
    (st : ForkedBlockchain) (block : Block) :
    Outcome Unit × ForkedBlockchain :=
  let lb := fb_last_block hm rpc st
  match lb.1 with
  | Outcome.panic => (Outcome.panic, lb.2)
  | Outcome.fail e => (Outcome.fail e, lb.2)
  | Outcome.ok last_block =>
    let next_block_number := last_block.header.number + 1
    if block.header.number ≠ next_block_number then
      (Outcome.fail
        (BlockchainError.InvalidBlockNumber block.header.number next_block_number),
        lb.2)
    else
      let last_hash := hm.headerHash last_block.header
      if block.header.parent_hash ≠ last_hash then
        (Outcome.fail BlockchainError.InvalidParentHash, lb.2)
      else
        let td := fb_total_difficulty_by_hash hm rpc lb.2 last_hash
        match td.1 with
        | Outcome.panic => (Outcome.panic, td.2)
        | Outcome.fail _ => (Outcome.panic, td.2)
        | Outcome.ok none => (Outcome.panic, td.2)
        | Outcome.ok (some previous_total_difficulty) =>
          (Outcome.ok (),
            { td.2 with local_storage := td.2.local_storage ++
                [(block, previous_total_difficulty + block.header.difficulty)] })

/-- One operation of the overlay's external surface, for reasoning about
operation sequences. -/
inductive Operation where
  | opBlockHash (n : U256)
  | opBlockByNumber (n : U256)
  | opBlockByHash (h : B256)
  | opBlockByTransactionHash (th : B256)
  | opLastBlock
  | opLastBlockNumber
  | opTotalDifficultyByHash (h : B256)
  | opInsertBlock (b : Block)

/-- The state reached after one operation. -/
def step (hm : HashModel) (rpc : RpcClient) (st : ForkedBlockchain) :
    Operation → ForkedBlockchain
  | Operation.opBlockHash n => (fb_block_hash hm rpc st n).2
  | Operation.opBlockByNumber n => (fb_block_by_number hm rpc st n).2
  | Operation.opBlockByHash h => (fb_block_by_hash hm rpc st h).2
  | Operation.opBlockByTransactionHash th =>
      (fb_block_by_transaction_hash hm rpc st th).2
  | Operation.opLastBlock => (fb_last_block hm rpc st).2
  | Operation.opLastBlockNumber => st
  | Operation.opTotalDifficultyByHash h =>
      (fb_total_difficulty_by_hash hm rpc st h).2
  | Operation.opInsertBlock b => (fb_insert_block hm rpc st b).2

/-- The state reached after a sequence of operations. -/
def run (hm : HashModel) (rpc : RpcClient) (st : ForkedBlockchain) :
    List Operation → ForkedBlockchain
  | [] => st
  | op :: ops => run hm rpc (step hm rpc st op) ops

/-! ## Reachability assumptions and concrete instances -/

/-- Invariant fragment of reachable overlay states (spec §3: local numbers
are contiguous from `fork_block_number + 1`): the last locally stored
block is numbered `fork_block_number + |local_storage|`. -/
def local_last_number_ok (st : ForkedBlockchain) : Prop :=
  ∀ p, st.local_storage.getLast? = some p →
    p.1.header.number = fb_last_block_number st

/-- Assumption on the remote client: a block served for a number query
carries that number (remote data is trusted by the overlay). -/
def rpc_number_ok (rpc : RpcClient) : Prop :=
  ∀ n eb, rpc.getBlockByNumber n = some eb → eb.number = n

/-- A base external transaction with every numeric field zero and every
optional field absent, for building concrete instances. -/
def tx0 : Transaction :=
  { hash := 0, nonce := 0, block_hash := none, block_number := none
    transaction_index := none, from_addr := 0, to_addr := none, value := 0
    gas_price := 0, gas := 0, input := [], v := 0, r := 0, s := 0
    chain_id := none, transaction_type := 0, access_list := none
    max_fee_per_gas := none, max_priority_fee_per_gas := none }

/-- A legacy transaction with a call target and a signature. -/
def tx_legacy : Transaction :=
  { tx0 with to_addr := some 5, gas := 21000, v := 27, r := 9, s := 8 }

/-- The internal form `tx_legacy` converts to. -/
def lgc0 : LegacySignedTransaction :=
  { nonce := 0, gas_price := 0, gas_limit := 21000
    kind := TransactionKind.Call 5, value := 0, input := []
    signature := { r := 9, s := 8, v := 27 } }

/-- A type-0 transaction whose `gas` does not fit in 64 bits. -/
def tx_gas_overflow : Transaction := { tx0 with gas := U64_SIZE }

/-- A type-1 transaction with `chain_id` present, `access_list` absent
and an oversized `gas`. -/
def tx_c6 : Transaction :=
  { tx0 with transaction_type := 1, chain_id := some 1, gas := U64_SIZE }

/-- A transaction of the unsupported type 3. -/
def tx_unsupported : Transaction := { tx0 with transaction_type := 3 }

/-- A base internal header with every field zero/absent. -/
def header0 : Header :=
  { parent_hash := 0, ommers_hash := 0, beneficiary := 0, state_root := 0
    transactions_root := 0, receipts_root := 0, logs_bloom := 0
    difficulty := 0, number := 0, gas_limit := 0, gas_used := 0
    timestamp := 0, extra_data := [], mix_hash := 0, nonce := 0
    base_fee_per_gas := none, withdrawals_root := none }

/-- An internal block with the given number, parent hash and difficulty
and no transactions. -/
def mkBlock (n : U256) (parent : B256) (diff : U256) : Block :=
  { header := { header0 with number := n, parent_hash := parent, difficulty := diff }
    transactions := []
    ommers := [] }

/-- A concrete hash model for the examples: a header hashes to its number
plus 1000 (injective on block numbers), transactions hash to 0. -/
def hm0 : HashModel :=
  { headerHash := fun h => h.number + 1000, txHash := fun _ => 0 }

/-- A remote client that knows nothing. -/
def rpc_empty : RpcClient :=
  { getBlockByNumber := fun _ => none
    getBlockByHash := fun _ => some none
    getTransactionByHash := fun _ => some none }

/-- An overlay state forked at block 0 whose local store holds the two
blocks numbered 1 and 2 (each block's parent hash is the `hm0` hash of
its predecessor, total difficulties 1 and 2). -/
def stC1 : ForkedBlockchain :=
  { local_storage := [(mkBlock 1 1000 0, 1), (mkBlock 2 1001 0, 2)]
    remote_cache := []
    fork_block_number := 0, chain_id := 1, network_id := 1 }

/-- An empty overlay state forked at block 0. -/
def stE : ForkedBlockchain :=
  { local_storage := [], remote_cache := []
    fork_block_number := 0, chain_id := 1, network_id := 1 }

/-- An external transaction whose own hash is 7 but whose containing
block's hash is 99. -/
def tx7 : Transaction := { tx0 with hash := 7, block_hash := some 99 }

/-- A well-formed external block with hash 99 at number 0. -/
def eth_block_99 : EthBlock :=
  { hash := some 99, parent_hash := 0, sha3_uncles := 0, state_root := 0
    transactions_root := 0, receipts_root := 0, number := 0, gas_used := 0
    gas_limit := 0, extra_data := [], logs_bloom := 0, timestamp := 0
    difficulty := 0, total_difficulty := some 1, uncles := []
    transactions := [], size := 0, mix_hash := 0, nonce := some 0
    base_fee_per_gas := none, miner := some 0, withdrawals := []
    withdrawals_root := none }

/-- A remote client that resolves transaction hash 7 to `tx7` and block
hash 99 to `eth_block_99`, and otherwise answers *not found*. -/
def rpcC2 : RpcClient :=
  { getBlockByNumber := fun _ => none
    getBlockByHash := fun h => if h = 99 then some (some eth_block_99) else some none
    getTransactionByHash := fun h => if h = 7 then some (some tx7) else some none }

/-- A remote client that serves `eth_block_99` as the block at number 0
and otherwise fails. -/
def rpcC4 : RpcClient :=
  { getBlockByNumber := fun n => if n = 0 then some eth_block_99 else none
    getBlockByHash := fun _ => some none
    getTransactionByHash := fun _ => some none }

/-! ## Equation lemmas for the transaction conversion -/

lemma try_from_type0_eq (t : Transaction) (h0 : t.transaction_type = 0)
    (hg : t.gas < U64_SIZE) :
    signed_transaction_try_from t = some (Except.ok (SignedTransaction.Legacy {
      nonce := t.nonce
      gas_price := t.gas_price
      gas_limit := t.gas
      kind := transaction_kind_of t
      value := t.value
      input := t.input
      signature := { r := t.r, s := t.s, v := t.v } })) := by
  simp [signed_transaction_try_from, transaction_kind_of, h0, u256_to_u64, hg]

lemma try_from_type0_panic (t : Transaction) (h0 : t.transaction_type = 0)
    (hg : U64_SIZE ≤ t.gas) :
    signed_transaction_try_from t = none := by
  simp [signed_transaction_try_from, h0, u256_to_u64, Nat.not_lt.mpr hg]

lemma try_from_type1_missing_chain_id (t : Transaction)
    (h1 : t.transaction_type = 1) (hc : t.chain_id = none) :
    signed_transaction_try_from t =
      some (Except.error TransactionConversionError.MissingChainId) := by
  simp [signed_transaction_try_from, h1, hc]

lemma try_from_type1_panic (t : Transaction) (h1 : t.transaction_type = 1)
    (cid : U64) (hc : t.chain_id = some cid) (hg : U64_SIZE ≤ t.gas) :
    signed_transaction_try_from t = none := by
  simp [signed_transaction_try_from, h1, hc, u256_to_u64, Nat.not_lt.mpr hg]

lemma try_from_type1_missing_access_list (t : Transaction)
    (h1 : t.transaction_type = 1) (cid : U64) (hc : t.chain_id = some cid)
    (hg : t.gas < U64_SIZE) (hal : t.access_list = none) :
    signed_transaction_try_from t =
      some (Except.error TransactionConversionError.MissingAccessList) := by
  simp [signed_transaction_try_from, h1, hc, hal, u256_to_u64, hg]

lemma try_from_type1_eq (t : Transaction) (h1 : t.transaction_type = 1)
    (cid : U64) (hc : t.chain_id = some cid) (hg : t.gas < U64_SIZE)
    (al : List AccessListItem) (hal : t.access_list = some al) :
    signed_transaction_try_from t = some (Except.ok (SignedTransaction.EIP2930 {
      chain_id := cid
      nonce := t.nonce
      gas_price := t.gas_price
      gas_limit := t.gas
      kind := transaction_kind_of t
      value := t.value
      input := t.input
      access_list := al
      odd_y_parity := t.v != 0
      r := b256_from_u256 t.r
      s := b256_from_u256 t.s })) := by
  simp [signed_transaction_try_from, transaction_kind_of, h1, hc, hal,
    u256_to_u64, hg]

lemma try_from_type2_missing_chain_id (t : Transaction)
    (h2 : t.transaction_type = 2) (hc : t.chain_id = none) :
    signed_transaction_try_from t =
      some (Except.error TransactionConversionError.MissingChainId) := by
  simp [signed_transaction_try_from, h2, hc]

lemma try_from_type2_missing_max_priority_fee (t : Transaction)
    (h2 : t.transaction_type = 2) (cid : U64) (hc : t.chain_id = some cid)
    (hp : t.max_priority_fee_per_gas = none) :
    signed_transaction_try_from t =
      some (Except.error TransactionConversionError.MissingMaxPriorityFeePerGas) := by
  simp [signed_transaction_try_from, h2, hc, hp]

lemma try_from_type2_missing_max_fee (t : Transaction)
    (h2 : t.transaction_type = 2) (cid : U64) (hc : t.chain_id = some cid)
    (mpf : U256) (hp : t.max_priority_fee_per_gas = some mpf)
    (hf : t.max_fee_per_gas = none) :
    signed_transaction_try_from t =
      some (Except.error TransactionConversionError.MissingMaxFeePerGas) := by
  simp [signed_transaction_try_from, h2, hc, hp, hf]

lemma try_from_type2_panic (t : Transaction) (h2 : t.transaction_type = 2)
    (cid : U64) (hc : t.chain_id = some cid) (mpf : U256)
    (hp : t.max_priority_fee_per_gas = some mpf) (mf : U256)
    (hf : t.max_fee_per_gas = some mf) (hg : U64_SIZE ≤ t.gas) :
    signed_transaction_try_from t = none := by
  simp [signed_transaction_try_from, h2, hc, hp, hf, u256_to_u64,
    Nat.not_lt.mpr hg]

lemma try_from_type2_missing_access_list (t : Transaction)
    (h2 : t.transaction_type = 2) (cid : U64) (hc : t.chain_id = some cid)
    (mpf : U256) (hp : t.max_priority_fee_per_gas = some mpf) (mf : U256)
    (hf : t.max_fee_per_gas = some mf) (hg : t.gas < U64_SIZE)
    (hal : t.access_list = none) :
    signed_transaction_try_from t =
      some (Except.error TransactionConversionError.MissingAccessList) := by
  simp [signed_transaction_try_from, h2, hc, hp, hf, hal, u256_to_u64, hg]

lemma try_from_type2_eq (t : Transaction) (h2 : t.transaction_type = 2)
    (cid : U64) (hc : t.chain_id = some cid) (mpf : U256)
    (hp : t.max_priority_fee_per_gas = some mpf) (mf : U256)
    (hf : t.max_fee_per_gas = some mf) (hg : t.gas < U64_SIZE)
    (al : List AccessListItem) (hal : t.access_list = some al) :
    signed_transaction_try_from t = some (Except.ok (SignedTransaction.EIP1559 {
      chain_id := cid
      nonce := t.nonce
      max_priority_fee_per_gas := mpf
      max_fee_per_gas := mf
      gas_limit := t.gas
      kind := transaction_kind_of t
      value := t.value
      input := t.input
      access_list := al
      odd_y_parity := t.v != 0
      r := b256_from_u256 t.r
      s := b256_from_u256 t.s })) := by
  simp [signed_transaction_try_from, transaction_kind_of, h2, hc, hp, hf, hal,
    u256_to_u64, hg]

lemma try_from_type_other (t : Transaction) (h : 3 ≤ t.transaction_type) :
    signed_transaction_try_from t =
      some (Except.error
        (TransactionConversionError.UnsupportedType t.transaction_type)) := by
  obtain ⟨k, hk⟩ : ∃ k, t.transaction_type = k + 3 :=
    ⟨t.transaction_type - 3, (Nat.sub_add_cancel h).symm⟩
  simp only [signed_transaction_try_from, hk]

lemma try_from_isSome_of_gas_lt (t : Transaction) (hg : t.gas < U64_SIZE) :
    ∃ r, signed_transaction_try_from t = some r := by
  rcases Nat.lt_or_ge t.transaction_type 3 with h3 | h3
  · have h012 : t.transaction_type = 0 ∨ t.transaction_type = 1 ∨
        t.transaction_type = 2 := by
      rcases ht : t.transaction_type with _ | _ | _ | n
      · decide
      · decide
      · decide
      · exact absurd h3 (by rw [ht]; omega)
    rcases h012 with h | h | h
    · exact ⟨_, try_from_type0_eq t h hg⟩
    · rcases hc : t.chain_id with _ | cid
      · exact ⟨_, try_from_type1_missing_chain_id t h hc⟩
      · rcases hal : t.access_list with _ | al
        · exact ⟨_, try_from_type1_missing_access_list t h cid hc hg hal⟩
        · exact ⟨_, try_from_type1_eq t h cid hc hg al hal⟩
    · rcases hc : t.chain_id with _ | cid
      · exact ⟨_, try_from_type2_missing_chain_id t h hc⟩
      · rcases hp : t.max_priority_fee_per_gas with _ | mpf
        · exact ⟨_, try_from_type2_missing_max_priority_fee t h cid hc hp⟩
        · rcases hf : t.max_fee_per_gas with _ | mf
          · exact ⟨_, try_from_type2_missing_max_fee t h cid hc mpf hp hf⟩
          · rcases hal : t.access_list with _ | al
            · exact ⟨_,
                try_from_type2_missing_access_list t h cid hc mpf hp mf hf hg hal⟩
            · exact ⟨_, try_from_type2_eq t h cid hc mpf hp mf hf hg al hal⟩
  · exact ⟨_, try_from_type_other t h3⟩

/-! ## Claims about the transaction conversion -/

/-- Claim C3 (amended): the conversion of an external transaction to an
internal signed transaction always returns a value — a success or one of
the typed errors — for every transaction whose `gas` fits in 64 bits;
and the only way it can panic is a `gas` outside the 64-bit range (the
`value.gas.to()` narrowing). -/
theorem C3_conversion_total_unless_gas_overflow (t : Transaction) :
    (t.gas < U64_SIZE → ∃ r, signed_transaction_try_from t = some r) ∧
    (signed_transaction_try_from t = none → U64_SIZE ≤ t.gas) := by
  constructor
  · exact fun hg => try_from_isSome_of_gas_lt t hg
  · intro hn
    by_contra hlt
    push_neg at hlt
    obtain ⟨r, hr⟩ := try_from_isSome_of_gas_lt t hlt
    rw [hr] at hn
    exact Option.noConfusion hn

/-- Claim C3, counterexample to the claim as stated: on the type-0
transaction whose `gas` is `2 ^ 64` the conversion does not return a
result at all — the `gas_limit` narrowing panics (`none`), so the
conversion is not total and does panic when `gas` exceeds the 64-bit
range. -/
theorem C3_counterexample :
    tx_gas_overflow.transaction_type = 0 ∧ tx_gas_overflow.gas = U64_SIZE ∧
    signed_transaction_try_from tx_gas_overflow = none :=
  ⟨rfl, rfl, try_from_type0_panic tx_gas_overflow rfl (Nat.le_refl _)⟩

/-- Claim C3, witness: the amended theorem applied to the concrete legacy
transaction `tx_legacy` (gas 21000). -/
theorem C3_witness : ∃ r, signed_transaction_try_from tx_legacy = some r :=
  (C3_conversion_total_unless_gas_overflow tx_legacy).1 (by decide)

/-- Claim C6 (amended): variant discrimination of the conversion by
`transaction_type` — type 0 never fails on field presence; type 1
requires `chain_id` then `access_list`; type 2 additionally requires the
two fee fields (checked between `chain_id` and `access_list`); any other
type yields `UnsupportedType`; with all required fields present the
conversion succeeds with the corresponding variant — all provided `gas`
fits in 64 bits wherever the gas narrowing is reached (it precedes the
`access_list` check and the variant construction; an oversized `gas`
panics there instead). -/
theorem C6_variant_discrimination (t : Transaction) :
    (t.transaction_type = 0 → t.gas < U64_SIZE →
      ∃ l, signed_transaction_try_from t =
        some (Except.ok (SignedTransaction.Legacy l))) ∧
    (t.transaction_type = 1 → t.chain_id = none →
      signed_transaction_try_from t =
        some (Except.error TransactionConversionError.MissingChainId)) ∧
    (t.transaction_type = 1 → ∀ cid, t.chain_id = some cid →
      t.gas < U64_SIZE → t.access_list = none →
      signed_transaction_try_from t =
        some (Except.error TransactionConversionError.MissingAccessList)) ∧
    (t.transaction_type = 1 → ∀ cid al, t.chain_id = some cid →
      t.access_list = some al → t.gas < U64_SIZE →
      ∃ x, signed_transaction_try_from t =
        some (Except.ok (SignedTransaction.EIP2930 x))) ∧
    (t.transaction_type = 2 → t.chain_id = none →
      signed_transaction_try_from t =
        some (Except.error TransactionConversionError.MissingChainId)) ∧
    (t.transaction_type = 2 → ∀ cid, t.chain_id = some cid →
      t.max_priority_fee_per_gas = none →
      signed_transaction_try_from t =
        some (Except.error TransactionConversionError.MissingMaxPriorityFeePerGas)) ∧
    (t.transaction_type = 2 → ∀ cid mpf, t.chain_id = some cid →
      t.max_priority_fee_per_gas = some mpf → t.max_fee_per_gas = none →
      signed_transaction_try_from t =
        some (Except.error TransactionConversionError.MissingMaxFeePerGas)) ∧
    (t.transaction_type = 2 → ∀ cid mpf mf, t.chain_id = some cid →
      t.max_priority_fee_per_gas = some mpf → t.max_fee_per_gas = some mf →
      t.gas < U64_SIZE → t.access_list = none →
      signed_transaction_try_from t =
        some (Except.error TransactionConversionError.MissingAccessList)) ∧
    (t.transaction_type = 2 → ∀ cid mpf mf al, t.chain_id = some cid →
      t.max_priority_fee_per_gas = some mpf → t.max_fee_per_gas = some mf →
      t.access_list = some al → t.gas < U64_SIZE →
      ∃ x, signed_transaction_try_from t =
        some (Except.ok (SignedTransaction.EIP1559 x))) ∧
    (3 ≤ t.transaction_type →
      signed_transaction_try_from t =
        some (Except.error
          (TransactionConversionError.UnsupportedType t.transaction_type))) := by
  refine ⟨?_, ?_, ?_, ?_, ?_, ?_, ?_, ?_, ?_, ?_⟩
  · exact fun h0 hg => ⟨_, try_from_type0_eq t h0 hg⟩
  · exact fun h1 hc => try_from_type1_missing_chain_id t h1 hc
  · exact fun h1 cid hc hg hal =>
      try_from_type1_missing_access_list t h1 cid hc hg hal
  · exact fun h1 cid al hc hal hg => ⟨_, try_from_type1_eq t h1 cid hc hg al hal⟩
  · exact fun h2 hc => try_from_type2_missing_chain_id t h2 hc
  · exact fun h2 cid hc hp => try_from_type2_missing_max_priority_fee t h2 cid hc hp
  · exact fun h2 cid mpf hc hp hf =>
      try_from_type2_missing_max_fee t h2 cid hc mpf hp hf
  · exact fun h2 cid mpf mf hc hp hf hg hal =>
      try_from_type2_missing_access_list t h2 cid hc mpf hp mf hf hg hal
  · exact fun h2 cid mpf mf al hc hp hf hal hg =>
      ⟨_, try_from_type2_eq t h2 cid hc mpf hp mf hf hg al hal⟩
  · exact fun h => try_from_type_other t h

/-- Claim C6, counterexample to the claim as stated: on the type-1
transaction with `chain_id` present, `access_list` absent and `gas` equal
to `2 ^ 64`, the conversion does not fail with `MissingAccessList` as the
claim requires — the gas narrowing panics first. -/
theorem C6_counterexample :
    tx_c6.transaction_type = 1 ∧ tx_c6.chain_id = some 1 ∧
    tx_c6.access_list = none ∧
    signed_transaction_try_from tx_c6 = none ∧
    signed_transaction_try_from tx_c6 ≠
      some (Except.error TransactionConversionError.MissingAccessList) := by
  have h : signed_transaction_try_from tx_c6 = none :=
    try_from_type1_panic tx_c6 rfl 1 rfl (Nat.le_refl _)
  exact ⟨rfl, rfl, rfl, h, by rw [h]; exact fun hx => Option.noConfusion hx⟩

/-- Claim C6, witness: the amended theorem applied to the concrete type-3
transaction, giving `UnsupportedType 3`. -/
theorem C6_witness :
    signed_transaction_try_from tx_unsupported =
      some (Except.error (TransactionConversionError.UnsupportedType 3)) :=
  (C6_variant_discrimination tx_unsupported).2.2.2.2.2.2.2.2.2 (by decide)

/-- Claim C8: in every successful conversion, a Legacy result preserves
`v`, `r`, `s` verbatim; a typed (EIP-2930/EIP-1559) result has
`odd_y_parity = (v != 0)` and `r`, `s` reinterpreted as 32-byte hashes;
and the kind is `Call(to)` when `to` is present and `Create` otherwise. -/
theorem C8_signature_and_kind (t : Transaction) (s : SignedTransaction)
    (h : signed_transaction_try_from t = some (Except.ok s)) :
    (∀ l, s = SignedTransaction.Legacy l →
      l.signature.v = t.v ∧ l.signature.r = t.r ∧ l.signature.s = t.s ∧
      l.kind = transaction_kind_of t) ∧
    (∀ x, s = SignedTransaction.EIP2930 x →
      x.odd_y_parity = (t.v != 0) ∧ x.r = b256_from_u256 t.r ∧
      x.s = b256_from_u256 t.s ∧ x.kind = transaction_kind_of t) ∧
    (∀ x, s = SignedTransaction.EIP1559 x →
      x.odd_y_parity = (t.v != 0) ∧ x.r = b256_from_u256 t.r ∧
      x.s = b256_from_u256 t.s ∧ x.kind = transaction_kind_of t) := by
  simp only [signed_transaction_try_from, transaction_kind_of] at h ⊢
  repeat' split at h
  all_goals simp_all
  all_goals subst h
  all_goals simp

/-- Claim C8, witness: the theorem applied to the concrete legacy
transaction `tx_legacy` and its conversion result `lgc0`. -/
theorem C8_witness :
    lgc0.signature.v = tx_legacy.v ∧ lgc0.signature.r = tx_legacy.r ∧
    lgc0.signature.s = tx_legacy.s ∧ lgc0.kind = transaction_kind_of tx_legacy :=
  (C8_signature_and_kind tx_legacy (SignedTransaction.Legacy lgc0)
    (by decide)).1 lgc0 rfl

/-- Claim C10: an absent `type` field deserializes `transaction_type` to
0 (the serde default), and a `transaction_type`-0 transaction is never
rejected with a conversion error — it converts as Legacy (successfully
whenever `gas` fits in 64 bits; an oversized `gas` panics, see C3). -/
theorem C10_absent_type_is_legacy :
    transaction_type_from_field none = some 0 ∧
    ∀ t : Transaction, t.transaction_type = 0 →
      (∀ e, signed_transaction_try_from t ≠ some (Except.error e)) ∧
      (t.gas < U64_SIZE →
        ∃ l, signed_transaction_try_from t =
          some (Except.ok (SignedTransaction.Legacy l))) := by
  refine ⟨rfl, fun t h0 => ⟨?_, fun hg => ⟨_, try_from_type0_eq t h0 hg⟩⟩⟩
  intro e he
  rcases Nat.lt_or_ge t.gas U64_SIZE with hg | hg
  · rw [try_from_type0_eq t h0 hg] at he
    simp at he
  · rw [try_from_type0_panic t h0 hg] at he
    exact Option.noConfusion he

/-- Claim C10, witness: the theorem applied to the all-default external
transaction `tx0` (absent `type` field, gas 0). -/
theorem C10_witness :
    ∃ l, signed_transaction_try_from tx0 =
      some (Except.ok (SignedTransaction.Legacy l)) :=
  (C10_absent_type_is_legacy.2 tx0 rfl).2 (by decide)

/-- Claim C7: fork-point selection during construction — the reorg table
is 1→5, 3→100, 4→5, 5→5, 42→5, 100→38 with 30 as default for absent
chain ids; a supplied fork block number above the latest block number
fails with `InvalidBlockNumber`; a supplied value above the (saturating)
`safe_block_number` is accepted with a warning; any other supplied value
is accepted silently; an omitted value selects `safe_block_number`. -/
theorem C7_fork_point_selection (chain_id latest f : U256) :
    (largest_possible_reorg 1 = some 5 ∧ largest_possible_reorg 3 = some 100 ∧
      largest_possible_reorg 4 = some 5 ∧ largest_possible_reorg 5 = some 5 ∧
      largest_possible_reorg 42 = some 5 ∧
      largest_possible_reorg 100 = some 38) ∧
    (chain_id ≠ 1 → chain_id ≠ 3 → chain_id ≠ 4 → chain_id ≠ 5 →
      chain_id ≠ 42 → chain_id ≠ 100 →
      largest_possible_reorg chain_id = none) ∧
    (f > latest →
      select_fork_block_number chain_id latest (some f) =
        Except.error (CreationError.InvalidBlockNumber f latest)) ∧
    (f ≤ latest →
      f > latest - (largest_possible_reorg chain_id).getD FALLBACK_MAX_REORG →
      select_fork_block_number chain_id latest (some f) = Except.ok (f, true)) ∧
    (f ≤ latest →
      f ≤ latest - (largest_possible_reorg chain_id).getD FALLBACK_MAX_REORG →
      select_fork_block_number chain_id latest (some f) = Except.ok (f, false)) ∧
    (select_fork_block_number chain_id latest none =
      Except.ok
        (latest - (largest_possible_reorg chain_id).getD FALLBACK_MAX_REORG,
          false)) := by
  refine ⟨by decide, ?_, ?_, ?_, ?_, rfl⟩
  · intro h1 h3 h4 h5 h42 h100
    simp [largest_possible_reorg, h1, h3, h4, h5, h42, h100]
  · intro h
    simp [select_fork_block_number, h]
  · intro h1 h2
    have hn : ¬ (f > latest) := Nat.not_lt.mpr h1
    simp [select_fork_block_number, hn, h2]
  · intro h1 h2
    have hn : ¬ (f > latest) := Nat.not_lt.mpr h1
    have hn2 : ¬ (f >
        latest - (largest_possible_reorg chain_id).getD FALLBACK_MAX_REORG) :=
      Nat.not_lt.mpr h2
    simp [select_fork_block_number, hn, hn2]

/-- Claim C7, witness: the theorem applied to the spec's literal
scenarios — chain 1, latest 100, requested 99 is accepted with a warning
(safe is 95); requested 101 fails; chain 100 (xDai, depth 38), latest
1000, requested 900 is accepted silently (safe is 962). -/
theorem C7_witness :
    select_fork_block_number 1 100 (some 99) = Except.ok (99, true) ∧
    select_fork_block_number 1 100 (some 101) =
      Except.error (CreationError.InvalidBlockNumber 101 100) ∧
    select_fork_block_number 100 1000 (some 900) = Except.ok (900, false) :=
  ⟨(C7_fork_point_selection 1 100 99).2.2.2.1 (by decide) (by decide),
    (C7_fork_point_selection 1 100 101).2.2.1 (by decide),
    (C7_fork_point_selection 100 1000 900).2.2.2.2.1 (by decide) (by decide)⟩

/-! ## Frame lemmas for the overlay operations -/

lemma fetch_by_number_frame (rpc : RpcClient) (st : ForkedBlockchain)
    (n : U256) :
    (fetch_and_admit_by_number rpc st n).2.local_storage = st.local_storage ∧
    (fetch_and_admit_by_number rpc st n).2.fork_block_number =
      st.fork_block_number ∧
    (fetch_and_admit_by_number rpc st n).2.chain_id = st.chain_id ∧
    (fetch_and_admit_by_number rpc st n).2.network_id = st.network_id := by
  unfold fetch_and_admit_by_number
  repeat' split
  all_goals exact ⟨rfl, rfl, rfl, rfl⟩

lemma fetch_by_hash_frame (rpc : RpcClient) (st : ForkedBlockchain)
    (h : B256) :
    (fetch_and_admit_by_hash rpc st h).2.local_storage = st.local_storage ∧
    (fetch_and_admit_by_hash rpc st h).2.fork_block_number =
      st.fork_block_number ∧
    (fetch_and_admit_by_hash rpc st h).2.chain_id = st.chain_id ∧
    (fetch_and_admit_by_hash rpc st h).2.network_id = st.network_id := by
  unfold fetch_and_admit_by_hash
  repeat' split
  all_goals exact ⟨rfl, rfl, rfl, rfl⟩

lemma fb_block_hash_frame (hm : HashModel) (rpc : RpcClient)
    (st : ForkedBlockchain) (n : U256) :
    (fb_block_hash hm rpc st n).2.local_storage = st.local_storage ∧
    (fb_block_hash hm rpc st n).2.fork_block_number = st.fork_block_number ∧
    (fb_block_hash hm rpc st n).2.chain_id = st.chain_id ∧
    (fb_block_hash hm rpc st n).2.network_id = st.network_id := by
  unfold fb_block_hash
  dsimp only
  repeat' split
  all_goals first
    | exact ⟨rfl, rfl, rfl, rfl⟩
    | exact fetch_by_number_frame rpc st n

lemma fb_block_by_number_frame (hm : HashModel) (rpc : RpcClient)
    (st : ForkedBlockchain) (n : U256) :
    (fb_block_by_number hm rpc st n).2.local_storage = st.local_storage ∧
    (fb_block_by_number hm rpc st n).2.fork_block_number =
      st.fork_block_number ∧
    (fb_block_by_number hm rpc st n).2.chain_id = st.chain_id ∧
    (fb_block_by_number hm rpc st n).2.network_id = st.network_id := by
  unfold fb_block_by_number
  dsimp only
  repeat' split
  all_goals first
    | exact ⟨rfl, rfl, rfl, rfl⟩
    | exact fetch_by_number_frame rpc st n

lemma fb_block_by_hash_frame (hm : HashModel) (rpc : RpcClient)
    (st : ForkedBlockchain) (h : B256) :
    (fb_block_by_hash hm rpc st h).2.local_storage = st.local_storage ∧
    (fb_block_by_hash hm rpc st h).2.fork_block_number =
      st.fork_block_number ∧
    (fb_block_by_hash hm rpc st h).2.chain_id = st.chain_id ∧
    (fb_block_by_hash hm rpc st h).2.network_id = st.network_id := by
  unfold fb_block_by_hash
  dsimp only
  repeat' split
  all_goals first
    | exact ⟨rfl, rfl, rfl, rfl⟩
    | exact fetch_by_hash_frame rpc st h

lemma fb_block_by_transaction_hash_frame (hm : HashModel) (rpc : RpcClient)
    (st : ForkedBlockchain) (th : B256) :
    (fb_block_by_transaction_hash hm rpc st th).2.local_storage =
      st.local_storage ∧
    (fb_block_by_transaction_hash hm rpc st th).2.fork_block_number =
      st.fork_block_number ∧
    (fb_block_by_transaction_hash hm rpc st th).2.chain_id = st.chain_id ∧
    (fb_block_by_transaction_hash hm rpc st th).2.network_id =
      st.network_id := by
  unfold fb_block_by_transaction_hash
  repeat' split
  all_goals first
    | exact ⟨rfl, rfl, rfl, rfl⟩
    | apply fb_block_by_hash_frame

lemma fb_last_block_frame (hm : HashModel) (rpc : RpcClient)
    (st : ForkedBlockchain) :
    (fb_last_block hm rpc st).2.local_storage = st.local_storage ∧
    (fb_last_block hm rpc st).2.fork_block_number = st.fork_block_number ∧
    (fb_last_block hm rpc st).2.chain_id = st.chain_id ∧
    (fb_last_block hm rpc st).2.network_id = st.network_id := by
  unfold fb_last_block
  dsimp only
  repeat' split
  all_goals first
    | exact ⟨rfl, rfl, rfl, rfl⟩
    | exact fetch_by_number_frame rpc st st.fork_block_number

lemma fb_total_difficulty_frame (hm : HashModel) (rpc : RpcClient)
    (st : ForkedBlockchain) (h : B256) :
    (fb_total_difficulty_by_hash hm rpc st h).2.local_storage =
      st.local_storage ∧
    (fb_total_difficulty_by_hash hm rpc st h).2.fork_block_number =
      st.fork_block_number ∧
    (fb_total_difficulty_by_hash hm rpc st h).2.chain_id = st.chain_id ∧
    (fb_total_difficulty_by_hash hm rpc st h).2.network_id =
      st.network_id := by
  unfold fb_total_difficulty_by_hash
  dsimp only
  repeat' split
  all_goals first
    | exact ⟨rfl, rfl, rfl, rfl⟩
    | exact fetch_by_hash_frame rpc st h

lemma fb_insert_block_frame (hm : HashModel) (rpc : RpcClient)
    (st : ForkedBlockchain) (b : Block) :
    ((fb_insert_block hm rpc st b).2.local_storage = st.local_storage ∨
      ∃ x, (fb_insert_block hm rpc st b).2.local_storage =
        st.local_storage ++ [x]) ∧
    (fb_insert_block hm rpc st b).2.fork_block_number =
      st.fork_block_number ∧
    (fb_insert_block hm rpc st b).2.chain_id = st.chain_id ∧
    (fb_insert_block hm rpc st b).2.network_id = st.network_id := by
  have hlb := fb_last_block_frame hm rpc st
  unfold fb_insert_block
  dsimp only
  rcases hl1 : (fb_last_block hm rpc st).1 with _ | e | last
  · simp only [hl1]
    exact ⟨Or.inl hlb.1, hlb.2.1, hlb.2.2.1, hlb.2.2.2⟩
  · simp only [hl1]
    exact ⟨Or.inl hlb.1, hlb.2.1, hlb.2.2.1, hlb.2.2.2⟩
  · simp only [hl1]
    have htd := fb_total_difficulty_frame hm rpc (fb_last_block hm rpc st).2
      (hm.headerHash last.header)
    repeat' split
    all_goals first
      | exact ⟨Or.inl hlb.1, hlb.2.1, hlb.2.2.1, hlb.2.2.2⟩
      | exact ⟨Or.inl (htd.1.trans hlb.1),
          htd.2.1.trans hlb.2.1, htd.2.2.1.trans hlb.2.2.1,
          htd.2.2.2.trans hlb.2.2.2⟩
      | exact ⟨Or.inr ⟨_, by rw [htd.1, hlb.1]⟩,
          htd.2.1.trans hlb.2.1, htd.2.2.1.trans hlb.2.2.1,
          htd.2.2.2.trans hlb.2.2.2⟩

lemma step_frame (hm : HashModel) (rpc : RpcClient) (st : ForkedBlockchain)
    (op : Operation) :
    (step hm rpc st op).fork_block_number = st.fork_block_number ∧
    st.local_storage.length ≤ (step hm rpc st op).local_storage.length := by
  cases op with
  | opBlockHash n =>
    have h := fb_block_hash_frame hm rpc st n
    exact ⟨h.2.1, by rw [step, h.1]⟩
  | opBlockByNumber n =>
    have h := fb_block_by_number_frame hm rpc st n
    exact ⟨h.2.1, by rw [step, h.1]⟩
  | opBlockByHash hsh =>
    have h := fb_block_by_hash_frame hm rpc st hsh
    exact ⟨h.2.1, by rw [step, h.1]⟩
  | opBlockByTransactionHash th =>
    have h := fb_block_by_transaction_hash_frame hm rpc st th
    exact ⟨h.2.1, by rw [step, h.1]⟩
  | opLastBlock =>
    have h := fb_last_block_frame hm rpc st
    exact ⟨h.2.1, by rw [step, h.1]⟩
  | opLastBlockNumber => exact ⟨rfl, Nat.le_refl _⟩
  | opTotalDifficultyByHash hsh =>
    have h := fb_total_difficulty_frame hm rpc st hsh
    exact ⟨h.2.1, by rw [step, h.1]⟩
  | opInsertBlock b =>
    have h := fb_insert_block_frame hm rpc st b
    refine ⟨h.2.1, ?_⟩
    rcases h.1 with heq | ⟨x, heq⟩
    · rw [step, heq]
    · rw [step, heq]
      simp

lemma fetch_by_number_spec (rpc : RpcClient) (st : ForkedBlockchain)
    (n : U256) :
    ((fetch_and_admit_by_number rpc st n).2 = st ∧
      ∀ b td, (fetch_and_admit_by_number rpc st n).1 ≠ Outcome.ok (b, td)) ∨
    (∃ b td, (fetch_and_admit_by_number rpc st n).1 = Outcome.ok (b, td) ∧
      (fetch_and_admit_by_number rpc st n).2 =
        { st with remote_cache := st.remote_cache ++ [(b, td)] } ∧
      ∃ eb, rpc.getBlockByNumber n = some eb ∧
        block_try_from eb = some (Except.ok b)) := by
  rcases h1 : rpc.getBlockByNumber n with _ | eb
  · exact Or.inl (by simp [fetch_and_admit_by_number, h1])
  · rcases h2 : eb.total_difficulty with _ | td
    · exact Or.inl (by simp [fetch_and_admit_by_number, h1, h2])
    · rcases h3 : block_try_from eb with _ | (e | bb)
      · exact Or.inl (by simp [fetch_and_admit_by_number, h1, h2, h3])
      · exact Or.inl (by simp [fetch_and_admit_by_number, h1, h2, h3])
      · refine Or.inr ⟨bb, td, ?_, ?_, eb, rfl, h3⟩ <;>
          simp [fetch_and_admit_by_number, h1, h2, h3]

lemma block_try_from_number (eb : EthBlock) (b : Block)
    (h : block_try_from eb = some (Except.ok b)) :
    b.header.number = eb.number := by
  unfold block_try_from at h
  rcases h1 : eb.miner with _ | m
  · simp [h1] at h
  · rcases h2 : eb.nonce with _ | nn
    · simp [h1, h2] at h
    · rcases h3 : convert_transactions eb.transactions with _ | (e | txs)
      · simp [h1, h2, h3] at h
      · simp [h1, h2, h3] at h
      · simp only [h1, h2, h3, Option.some.injEq, Except.ok.injEq] at h
        subst h
        rfl

lemma fb_last_block_state (hm : HashModel) (rpc : RpcClient)
    (st : ForkedBlockchain) :
    (fb_last_block hm rpc st).2 = st ∨
    ∃ b td, (fb_last_block hm rpc st).1 = Outcome.ok b ∧
      (fb_last_block hm rpc st).2 =
        { st with remote_cache := st.remote_cache ++ [(b, td)] } ∧
      ∃ eb, rpc.getBlockByNumber st.fork_block_number = some eb ∧
        block_try_from eb = some (Except.ok b) := by
  rcases h1 : st.local_storage.getLast? with _ | p
  · rcases h2 : storage_block_by_number st.remote_cache st.fork_block_number
        with _ | q
    · rcases fetch_by_number_spec rpc st st.fork_block_number with
        ⟨hst, hne⟩ | ⟨b, td, hok, hst, eb, heb, hconv⟩
      · rcases h3 : (fetch_and_admit_by_number rpc st st.fork_block_number).1
            with _ | e | bt
        · have heq : (fb_last_block hm rpc st).2 =
              (fetch_and_admit_by_number rpc st st.fork_block_number).2 := by
            simp only [fb_last_block, h1, h2, h3]
          exact Or.inl (heq.trans hst)
        · have heq : (fb_last_block hm rpc st).2 =
              (fetch_and_admit_by_number rpc st st.fork_block_number).2 := by
            simp only [fb_last_block, h1, h2, h3]
          exact Or.inl (heq.trans hst)
        · exact absurd h3 (hne bt.1 bt.2)
      · have heq : fb_last_block hm rpc st = (Outcome.ok b,
            { st with remote_cache := st.remote_cache ++ [(b, td)] }) := by
          simp only [fb_last_block, h1, h2, hok, hst]
        exact Or.inr ⟨b, td, by rw [heq], by rw [heq], eb, heb, hconv⟩
    · have heq : fb_last_block hm rpc st = (Outcome.ok q.1, st) := by
        simp only [fb_last_block, h1, h2]
      exact Or.inl (by rw [heq])
  · have heq : fb_last_block hm rpc st = (Outcome.ok p.1, st) := by
      simp only [fb_last_block, h1]
    exact Or.inl (by rw [heq])

lemma fb_last_block_ok_spec (hm : HashModel) (rpc : RpcClient)
    (st : ForkedBlockchain) (last : Block)
    (hLocal : local_last_number_ok st) (hRpc : rpc_number_ok rpc)
    (hok : (fb_last_block hm rpc st).1 = Outcome.ok last) :
    last.header.number = fb_last_block_number st ∧
    (∃ td, (last, td) ∈ (fb_last_block hm rpc st).2.local_storage ∨
      (last, td) ∈ (fb_last_block hm rpc st).2.remote_cache) ∧
    ((fb_last_block hm rpc st).2 = st ∨
      ∃ td, (fb_last_block hm rpc st).2 =
        { st with remote_cache := st.remote_cache ++ [(last, td)] } ∧
        last.header.number = st.fork_block_number) := by
  rcases h1 : st.local_storage.getLast? with _ | p
  · have hnil : st.local_storage = [] := List.getLast?_eq_none_iff.mp h1
    rcases h2 : storage_block_by_number st.remote_cache st.fork_block_number
        with _ | q
    · rcases fetch_by_number_spec rpc st st.fork_block_number with
        ⟨hst, hne⟩ | ⟨b, td, hfok, hst, eb, heb, hconv⟩
      · rcases h3 : (fetch_and_admit_by_number rpc st st.fork_block_number).1
            with _ | e | bt
        · have heq : (fb_last_block hm rpc st).1 = Outcome.panic := by
            simp only [fb_last_block, h1, h2, h3]
          rw [heq] at hok
          exact Outcome.noConfusion hok
        · have heq : (fb_last_block hm rpc st).1 = Outcome.fail e := by
            simp only [fb_last_block, h1, h2, h3]
          rw [heq] at hok
          exact Outcome.noConfusion hok
        · exact absurd h3 (hne bt.1 bt.2)
      · have heq : fb_last_block hm rpc st = (Outcome.ok b,
            { st with remote_cache := st.remote_cache ++ [(b, td)] }) := by
          simp only [fb_last_block, h1, h2, hfok, hst]
        rw [heq] at hok
        have hb : b = last := Outcome.ok.inj hok
        subst hb
        have hnum : b.header.number = st.fork_block_number :=
          (block_try_from_number eb b hconv).trans (hRpc _ eb heb)
        refine ⟨?_, ⟨td, Or.inr ?_⟩, Or.inr ⟨td, by rw [heq], hnum⟩⟩
        · rw [hnum]
          simp [fb_last_block_number, hnil]
        · rw [heq]
          simp
    · have heq : fb_last_block hm rpc st = (Outcome.ok q.1, st) := by
        simp only [fb_last_block, h1, h2]
      rw [heq] at hok
      have hq : q.1 = last := Outcome.ok.inj hok
      have hqmem : q ∈ st.remote_cache := by
        unfold storage_block_by_number at h2
        exact List.mem_of_find?_eq_some h2
      have hqnum : q.1.header.number = st.fork_block_number := by
        unfold storage_block_by_number at h2
        have hpred := List.find?_some h2
        exact eq_of_beq hpred
      subst hq
      refine ⟨?_, ⟨q.2, Or.inr (by rw [heq]; exact hqmem)⟩,
        Or.inl (by rw [heq])⟩
      rw [hqnum]
      simp [fb_last_block_number, hnil]
  · have heq : fb_last_block hm rpc st = (Outcome.ok p.1, st) := by
      simp only [fb_last_block, h1]
    rw [heq] at hok
    have hp : p.1 = last := Outcome.ok.inj hok
    have hpmem : p ∈ st.local_storage := List.mem_of_getLast?_eq_some h1
    subst hp
    exact ⟨hLocal p h1, ⟨p.2, Or.inl (by rw [heq]; exact hpmem)⟩,
      Or.inl (by rw [heq])⟩

lemma storage_td_isSome_of_mem (hm : HashModel)
    (entries : List (Block × U256)) (p : Block × U256) (hp : p ∈ entries) :
    (storage_total_difficulty_by_hash hm entries
      (hm.headerHash p.1.header)).isSome := by
  unfold storage_total_difficulty_by_hash storage_block_by_hash
  rw [Option.isSome_map']
  exact List.find?_isSome.mpr ⟨p, hp, by simp⟩

lemma fb_total_difficulty_hit (hm : HashModel) (rpc : RpcClient)
    (st : ForkedBlockchain) (h : B256)
    (hsome : (storage_total_difficulty_by_hash hm st.local_storage h).isSome ∨
      (storage_total_difficulty_by_hash hm st.remote_cache h).isSome) :
    (fb_total_difficulty_by_hash hm rpc st h).2 = st ∧
    ∃ td, (fb_total_difficulty_by_hash hm rpc st h).1 =
      Outcome.ok (some td) := by
  rcases h1 : storage_total_difficulty_by_hash hm st.local_storage h
      with _ | td
  · rcases h2 : storage_total_difficulty_by_hash hm st.remote_cache h
        with _ | td
    · exfalso
      rcases hsome with hs | hs
      · rw [h1] at hs; exact Bool.noConfusion hs
      · rw [h2] at hs; exact Bool.noConfusion hs
    · have heq : fb_total_difficulty_by_hash hm rpc st h =
          (Outcome.ok (some td), st) := by
        simp only [fb_total_difficulty_by_hash, h1, h2]
      exact ⟨by rw [heq], td, by rw [heq]⟩
  · have heq : fb_total_difficulty_by_hash hm rpc st h =
        (Outcome.ok (some td), st) := by
      simp only [fb_total_difficulty_by_hash, h1]
    exact ⟨by rw [heq], td, by rw [heq]⟩

/-- Claim C4 (amended): `insert_block` writes the argument block only to
the local store and only to a number past the fork point; the immutable
fields are untouched; and the remote cache is either unchanged or
extended by exactly one block whose number is the fork point — the
remote fork-point block admitted by the preliminary `last_block` read on
a cache miss — never by the argument block. -/
theorem C4_insert_block_frame (hm : HashModel) (rpc : RpcClient)
    (st : ForkedBlockchain) (b : Block)
    (hLocal : local_last_number_ok st) (hRpc : rpc_number_ok rpc) :
    (fb_insert_block hm rpc st b).2.fork_block_number =
      st.fork_block_number ∧
    (fb_insert_block hm rpc st b).2.chain_id = st.chain_id ∧
    (fb_insert_block hm rpc st b).2.network_id = st.network_id ∧
    ((fb_insert_block hm rpc st b).2.local_storage = st.local_storage ∨
      ∃ td, (fb_insert_block hm rpc st b).2.local_storage =
          st.local_storage ++ [(b, td)] ∧
        st.fork_block_number < b.header.number) ∧
    ((fb_insert_block hm rpc st b).2.remote_cache = st.remote_cache ∨
      ∃ blk td, (fb_insert_block hm rpc st b).2.remote_cache =
          st.remote_cache ++ [(blk, td)] ∧
        blk.header.number = st.fork_block_number) := by
  rcases hl1 : (fb_last_block hm rpc st).1 with _ | e | last
  · have heq : fb_insert_block hm rpc st b =
        (Outcome.panic, (fb_last_block hm rpc st).2) := by
      simp only [fb_insert_block, hl1]
    rcases fb_last_block_state hm rpc st with hst | ⟨bb, td, hbok, hst, eb, heb, hconv⟩
    · rw [heq, hst]
      exact ⟨rfl, rfl, rfl, Or.inl rfl, Or.inl rfl⟩
    · rw [hl1] at hbok
      exact Outcome.noConfusion hbok
  · have heq : fb_insert_block hm rpc st b =
        (Outcome.fail e, (fb_last_block hm rpc st).2) := by
      simp only [fb_insert_block, hl1]
    rcases fb_last_block_state hm rpc st with hst | ⟨bb, td, hbok, hst, eb, heb, hconv⟩
    · rw [heq, hst]
      exact ⟨rfl, rfl, rfl, Or.inl rfl, Or.inl rfl⟩
    · rw [hl1] at hbok
      exact Outcome.noConfusion hbok
  · obtain ⟨hnum_last, ⟨td0, hmem⟩, hstate⟩ :=
      fb_last_block_ok_spec hm rpc st last hLocal hRpc hl1
    unfold fb_insert_block
    dsimp only
    simp only [hl1]
    split
    · rcases hstate with hst | ⟨tdx, hst, hnumx⟩
      · rw [hst]
        exact ⟨rfl, rfl, rfl, Or.inl rfl, Or.inl rfl⟩
      · rw [hst]
        exact ⟨rfl, rfl, rfl, Or.inl rfl, Or.inr ⟨last, tdx, rfl, hnumx⟩⟩
    · split
      · rcases hstate with hst | ⟨tdx, hst, hnumx⟩
        · rw [hst]
          exact ⟨rfl, rfl, rfl, Or.inl rfl, Or.inl rfl⟩
        · rw [hst]
          exact ⟨rfl, rfl, rfl, Or.inl rfl, Or.inr ⟨last, tdx, rfl, hnumx⟩⟩
      · next hbn2 hpar2 =>
        have hbn : b.header.number = last.header.number + 1 := not_not.mp hbn2
        have hhit := fb_total_difficulty_hit hm rpc (fb_last_block hm rpc st).2
          (hm.headerHash last.header)
          (by
            rcases hmem with hmeml | hmemc
            · exact Or.inl (storage_td_isSome_of_mem hm _ (last, td0) hmeml)
            · exact Or.inr (storage_td_isSome_of_mem hm _ (last, td0) hmemc))
        obtain ⟨hst2, td', htd'⟩ := hhit
        simp only [htd']
        rw [hst2]
        have hlt : st.fork_block_number < b.header.number := by
          rw [hbn, hnum_last]
          exact Nat.lt_succ_of_le (Nat.le_add_right _ _)
        rcases hstate with hst | ⟨tdx, hst, hnumx⟩
        · rw [hst]
          exact ⟨rfl, rfl, rfl,
            Or.inr ⟨td' + b.header.difficulty, rfl, hlt⟩, Or.inl rfl⟩
        · rw [hst]
          exact ⟨rfl, rfl, rfl,
            Or.inr ⟨td' + b.header.difficulty, rfl, hlt⟩,
            Or.inr ⟨last, tdx, rfl, hnumx⟩⟩

/-- Claim C4, counterexample to the claim as stated: in the empty overlay
`stE` whose remote knows the fork-point block, a failing `insert_block`
call (wrong block number) changes the remote cache — the preliminary
`last_block` read fetches and admits the fork-point block. -/
theorem C4_counterexample :
    stE.remote_cache = [] ∧
    (fb_insert_block hm0 rpcC4 stE (mkBlock 5 0 0)).1 =
      Outcome.fail (BlockchainError.InvalidBlockNumber 5 1) ∧
    (fb_insert_block hm0 rpcC4 stE (mkBlock 5 0 0)).2.remote_cache =
      [(mkBlock 0 0 0, 1)] := by
  decide

/-- Claim C4, witness: the amended frame theorem applied to the concrete
empty overlay `stE`, the client `rpcC4` and the argument block numbered
5. -/
theorem C4_witness :
    (fb_insert_block hm0 rpcC4 stE (mkBlock 5 0 0)).2.chain_id =
      stE.chain_id ∧
    ((fb_insert_block hm0 rpcC4 stE (mkBlock 5 0 0)).2.remote_cache =
        stE.remote_cache ∨
      ∃ blk td,
        (fb_insert_block hm0 rpcC4 stE (mkBlock 5 0 0)).2.remote_cache =
          stE.remote_cache ++ [(blk, td)] ∧
        blk.header.number = stE.fork_block_number) := by
  have h := C4_insert_block_frame hm0 rpcC4 stE (mkBlock 5 0 0)
    (fun p hp => Option.noConfusion hp)
    (by
      intro n eb heb
      by_cases hn : n = 0
      · subst hn
        have h2 : some eth_block_99 = some eb := by
          rw [← heb]; rfl
        rw [← Option.some.inj h2]
        rfl
      · exact absurd heb (by simp [rpcC4, hn]))
  exact ⟨h.2.1, h.2.2.2.2⟩

/-- Claim C5 (amended): under the reachability assumptions, with the
last-block read succeeding with block `last` (whose number is
`last_block_number`), `insert_block b` fails with
`InvalidBlockNumber{actual := b.number, expected := last_block_number + 1}`
exactly when `b.number` differs from `last_block_number() + 1`; given the
number is right it fails with `InvalidParentHash` exactly when
`b.parent_hash` differs from the hash of the last block; it succeeds
exactly when both validations pass; any validation failure leaves the
*local store* unchanged (the preliminary reads may admit the fork-point
block into the remote cache, see the counterexample); and on success `b`
is appended to the local store with total difficulty equal to the
previous block's looked-up total difficulty plus `b.difficulty`. -/
theorem C5_insert_block_validation (hm : HashModel) (rpc : RpcClient)
    (st : ForkedBlockchain) (b last : Block)
    (hLocal : local_last_number_ok st) (hRpc : rpc_number_ok rpc)
    (hlast : (fb_last_block hm rpc st).1 = Outcome.ok last) :
    ((fb_insert_block hm rpc st b).1 =
        Outcome.fail (BlockchainError.InvalidBlockNumber b.header.number
          (fb_last_block_number st + 1)) ↔
      b.header.number ≠ fb_last_block_number st + 1) ∧
    (b.header.number = fb_last_block_number st + 1 →
      ((fb_insert_block hm rpc st b).1 =
          Outcome.fail BlockchainError.InvalidParentHash ↔
        b.header.parent_hash ≠ hm.headerHash last.header)) ∧
    ((fb_insert_block hm rpc st b).1 = Outcome.ok () ↔
      (b.header.number = fb_last_block_number st + 1 ∧
        b.header.parent_hash = hm.headerHash last.header)) ∧
    (∀ e, (fb_insert_block hm rpc st b).1 = Outcome.fail e →
      (fb_insert_block hm rpc st b).2.local_storage = st.local_storage) ∧
    ((fb_insert_block hm rpc st b).1 = Outcome.ok () →
      ∃ prev, (fb_total_difficulty_by_hash hm rpc (fb_last_block hm rpc st).2
          (hm.headerHash last.header)).1 = Outcome.ok (some prev) ∧
        (fb_insert_block hm rpc st b).2.local_storage =
          st.local_storage ++ [(b, prev + b.header.difficulty)]) := by
  obtain ⟨hnum_last, ⟨td0, hmem⟩, hstate⟩ :=
    fb_last_block_ok_spec hm rpc st last hLocal hRpc hlast
  have hlb_local : (fb_last_block hm rpc st).2.local_storage =
      st.local_storage := (fb_last_block_frame hm rpc st).1
  unfold fb_insert_block
  dsimp only
  simp only [hlast]
  split
  next hbn2 =>
    rw [hnum_last] at hbn2
    refine ⟨?_, ?_, ?_, ?_, ?_⟩
    · constructor
      · intro _; exact hbn2
      · intro _; rw [hnum_last]
    · intro hn; exact absurd hn hbn2
    · constructor
      · intro h; exact Outcome.noConfusion h
      · intro hx; exact absurd hx.1 hbn2
    · intro e _; exact hlb_local
    · intro h; exact Outcome.noConfusion h
  next hbn2 =>
    have hbn : b.header.number = last.header.number + 1 := not_not.mp hbn2
    split
    next hpar =>
      refine ⟨?_, ?_, ?_, ?_, ?_⟩
      · constructor
        · intro h
          exact BlockchainError.noConfusion (Outcome.fail.inj h)
        · intro hn
          exact absurd (by rw [hbn, hnum_last]) hn
      · intro _
        constructor
        · intro _; exact hpar
        · intro _; rfl
      · constructor
        · intro h; exact Outcome.noConfusion h
        · intro hx; exact absurd hx.2 hpar
      · intro e _; exact hlb_local
      · intro h; exact Outcome.noConfusion h
    next hpar2 =>
      have hpar : b.header.parent_hash = hm.headerHash last.header :=
        not_not.mp hpar2
      have hhit := fb_total_difficulty_hit hm rpc (fb_last_block hm rpc st).2
        (hm.headerHash last.header)
        (by
          rcases hmem with hl | hc
          · exact Or.inl (storage_td_isSome_of_mem hm _ (last, td0) hl)
          · exact Or.inr (storage_td_isSome_of_mem hm _ (last, td0) hc))
      obtain ⟨hst2, td', htd'⟩ := hhit
      simp only [htd']
      refine ⟨?_, ?_, ?_, ?_, ?_⟩
      · constructor
        · intro h; exact Outcome.noConfusion h
        · intro hn
          exact absurd (by rw [hbn, hnum_last]) hn
      · intro _
        constructor
        · intro h; exact Outcome.noConfusion h
        · intro hp; exact absurd hpar hp
      · constructor
        · intro _
          exact ⟨by rw [hbn, hnum_last], hpar⟩
        · intro _; trivial
      · intro e h; exact Outcome.noConfusion h
      · intro _
        refine ⟨td', rfl, ?_⟩
        rw [hst2, hlb_local]

/-- Claim C5, counterexample to the claim as stated: a validation failure
does not leave the overlay state unchanged — in the empty overlay `stE`
(remote knowing the fork-point block), an `insert_block` rejected with
`InvalidBlockNumber` leaves a state whose remote cache has grown by the
admitted fork-point block. -/
theorem C5_counterexample :
    (fb_insert_block hm0 rpcC4 stE (mkBlock 5 0 0)).1 =
      Outcome.fail (BlockchainError.InvalidBlockNumber 5 1) ∧
    (fb_insert_block hm0 rpcC4 stE (mkBlock 5 0 0)).2 ≠ stE := by
  decide

/-- Claim C5, witness: the amended theorem applied to the overlay `stC1`
(local blocks 1 and 2) and the block numbered 3 with the matching parent
hash, which is accepted. -/
theorem C5_witness :
    (fb_insert_block hm0 rpc_empty stC1 (mkBlock 3 1002 5)).1 =
      Outcome.ok () := by
  have h := C5_insert_block_validation hm0 rpc_empty stC1
    (mkBlock 3 1002 5) (mkBlock 2 1001 0)
    (by
      intro p hp
      have h2 := Option.some.inj
        ((show stC1.local_storage.getLast? =
            some (mkBlock 2 1001 0, 2) from rfl).symm.trans hp)
      rw [← h2]
      decide)
    (fun n eb heb => Option.noConfusion heb)
    (by decide)
  exact h.2.2.1.mpr ⟨by decide, by decide⟩

/-- Claim C9: `last_block_number` is `fork_block_number` plus the number
of locally stored blocks, and it never decreases across any sequence of
overlay operations (reads only ever extend the remote cache; the only
local-store change is the append of a validated block). -/
theorem C9_last_block_number_monotone (hm : HashModel) (rpc : RpcClient)
    (st : ForkedBlockchain) (ops : List Operation) :
    fb_last_block_number st =
      st.fork_block_number + st.local_storage.length ∧
    fb_last_block_number st ≤ fb_last_block_number (run hm rpc st ops) := by
  refine ⟨rfl, ?_⟩
  induction ops generalizing st with
  | nil => exact Nat.le_refl _
  | cons op ops ih =>
    have hstep : fb_last_block_number st ≤
        fb_last_block_number (step hm rpc st op) := by
      have h := step_frame hm rpc st op
      unfold fb_last_block_number
      rw [h.1]
      exact Nat.add_le_add_left h.2 _
    exact hstep.trans (ih (step hm rpc st op))

/-- Claim C1, evaluation of the code at the failing input: in the state
`stC1` (fork point 0, local store holding the blocks numbered 1 and 2 in
order), `block_by_number 1` indexes the local slice at position 1 — the
raw queried number, not `1 - fork_block_number - 1 = 0` — and returns
the block numbered 2; `block_by_number 2` returns `none` and
`block_hash 2` fails with `UnknownBlockNumber` although block 2 is the
last stored block; `block_hash 1` returns the hash of the block numbered
2 (1002 under `hm0`) instead of the hash of the block numbered 1 (1001).
The last conjunct shows the spec's index `n - fork_block_number - 1`
selects the correct entry. -/
theorem C1_local_indexing_bug :
    (fb_block_by_number hm0 rpc_empty stC1 1).1 =
      Outcome.ok (some (mkBlock 2 1001 0)) ∧
    (mkBlock 2 1001 0).header.number = 2 ∧
    (fb_block_by_number hm0 rpc_empty stC1 2).1 = Outcome.ok none ∧
    (fb_block_hash hm0 rpc_empty stC1 2).1 =
      Outcome.fail BlockchainError.UnknownBlockNumber ∧
    (fb_block_hash hm0 rpc_empty stC1 1).1 = Outcome.ok 1002 ∧
    hm0.headerHash (mkBlock 1 1000 0).header = 1001 ∧
    stC1.fork_block_number = 0 ∧
    stC1.local_storage.get? (1 - stC1.fork_block_number - 1) =
      some (mkBlock 1 1000 0, 1) := by
  decide

/-- Claim C2 (amended): when the transaction hash misses both the local
store and the remote cache, `block_by_transaction_hash` queries the RPC
client; a transport failure propagates, *not found* yields `None`, and a
found transaction recurses into `block_by_hash` with the transaction's
own `hash` field — not the block hash the transaction references. -/
theorem C2_recursion_uses_transaction_own_hash (hm : HashModel)
    (rpc : RpcClient) (st : ForkedBlockchain) (th : B256)
    (hl : storage_block_by_transaction_hash hm st.local_storage th = none)
    (hc : storage_block_by_transaction_hash hm st.remote_cache th = none) :
    fb_block_by_transaction_hash hm rpc st th =
      match rpc.getTransactionByHash th with
      | none => (Outcome.fail BlockchainError.JsonRpcError, st)
      | some none => (Outcome.ok none, st)
      | some (some transaction) =>
          fb_block_by_hash hm rpc st transaction.hash := by
  simp only [fb_block_by_transaction_hash, hl, hc]

/-- Claim C2, counterexample to the claim as stated: `tx7` is absent
everywhere locally, the RPC resolves transaction hash 7 to `tx7`, whose
referenced block hash is 99 and whose own hash is 7; the claim requires
the result of `block_by_transaction_hash 7` to be the (existing) block
with hash 99, but the code recurses on the transaction's own hash 7 and
returns `ok none`. -/
theorem C2_counterexample :
    tx7.hash = 7 ∧ tx7.block_hash = some 99 ∧
    rpcC2.getTransactionByHash 7 = some (some tx7) ∧
    (fb_block_by_transaction_hash hm0 rpcC2 stE 7).1 = Outcome.ok none ∧
    (fb_block_by_hash hm0 rpcC2 stE 99).1 ≠ Outcome.ok none := by
  decide

/-- Claim C2, witness: the amended theorem applied to the concrete state
`stE` and client `rpcC2` at transaction hash 7. -/
theorem C2_witness :
    fb_block_by_transaction_hash hm0 rpcC2 stE 7 =
      fb_block_by_hash hm0 rpcC2 stE tx7.hash := by
  have h := C2_recursion_uses_transaction_own_hash hm0 rpcC2 stE 7
    (by decide) (by decide)
  rw [h, show rpcC2.getTransactionByHash 7 = some (some tx7) from rfl]

end Rethnet
